import Mathlib

/-!
# Verification of the chatd message store, persistence layer, thread cache,
# and Suno job-polling state machine

Shallow embedding of the core of `chatd.py` (plus `check_suno_task_status`
from `song_generator.py`):

* `PyDateTime`, `isoformat`, `fromisoformat` — model of the aware
  `datetime` values stored by the bot and of the serialization used by
  `save_messages_to_file` / `load_messages_from_file`.  `fromisoformat` is
  modelled on the grammar `datetime.isoformat` emits
  (`YYYY-MM-DDTHH:MM:SS[.ffffff][±HH:MM]`), which is the only grammar the
  repository round-trips through it.
* `Json`, `Field`, `PyMsg`, `Store` — the in-memory `message_store`
  (a dict of dicts of message dicts) and the parsed-JSON view of the
  snapshot file.  `json.dump`/`json.load` are collaborators assumed to
  round-trip the `Json` tree exactly; the interesting serialization work
  (the timestamps) is modelled in full.
* `saveJson` / `loadFile` — `save_messages_to_file` (the serialization it
  performs when a write fires) and `load_messages_from_file`.
* `appendMsg`, `utcToMoscow` — the store mutation performed by
  `message_handler` for a plain text message.  Europe/Moscow is modelled
  as fixed UTC+3, its offset for the whole era in which the program can
  run (constant since 2014; pytz's historical LMT offsets are out of
  scope of the claims).
* `queryWindow`, `getMessagesForDate` — the window queries
  (`get_messages`, `get_messages_last_hours`, `get_messages_for_date`).
* `saveStep` — the batching counter of `save_messages_to_file`.
* `trimThread` — the thread-cache truncation in `cleanup_chat_threads`,
  `chatgpt_query` and `message_handler`.
* `pollStep`, `runChain`, `submitJob`, `checkSunoTaskStatus` — the
  self-rescheduling poll state machine `check_song_automatically`
  together with job submission and the status-check collaborator.
-/

/-! ## Decimal digit codec (model of `%0Nd` rendering and digit parsing) -/

/-- The ASCII digit character for `n` (`0 ≤ n ≤ 9`); model of how Python
renders one decimal digit. -/
def digitChar (n : Nat) : Char := Char.ofNat (48 + n)

/-- Parse one ASCII decimal digit. -/
def readDigit (c : Char) : Option Nat :=
  if 48 ≤ c.toNat ∧ c.toNat ≤ 57 then some (c.toNat - 48) else none

theorem readDigit_digitChar {d : Nat} (h : d ≤ 9) :
    readDigit (digitChar d) = some d := by
  interval_cases d <;> rfl

/-- Two-digit zero-padded rendering (`"%02d"` for in-range values). -/
def pad2 (n : Nat) : List Char := [digitChar (n / 10), digitChar (n % 10)]

/-- Four-digit zero-padded rendering (`"%04d"` for values `≤ 9999`). -/
def pad4 (n : Nat) : List Char :=
  [digitChar (n / 1000), digitChar (n / 100 % 10),
   digitChar (n / 10 % 10), digitChar (n % 10)]

/-- Six-digit zero-padded rendering (`"%06d"` for values `≤ 999999`),
used for the microsecond part. -/
def pad6 (n : Nat) : List Char :=
  [digitChar (n / 100000), digitChar (n / 10000 % 10), digitChar (n / 1000 % 10),
   digitChar (n / 100 % 10), digitChar (n / 10 % 10), digitChar (n % 10)]

/-- Read exactly two digits. -/
def read2 : List Char → Option (Nat × List Char)
  | a :: b :: rest =>
    match readDigit a, readDigit b with
    | some x, some y => some (10 * x + y, rest)
    | _, _ => none
  | _ => none

/-- Read exactly four digits. -/
def read4 : List Char → Option (Nat × List Char)
  | a :: b :: c :: d :: rest =>
    match readDigit a, readDigit b, readDigit c, readDigit d with
    | some x, some y, some z, some w => some (1000 * x + 100 * y + 10 * z + w, rest)
    | _, _, _, _ => none
  | _ => none

/-- Read exactly six digits. -/
def read6 : List Char → Option (Nat × List Char)
  | a :: b :: c :: d :: e :: f :: rest =>
    match readDigit a, readDigit b, readDigit c, readDigit d, readDigit e, readDigit f with
    | some u, some v, some w, some x, some y, some z =>
        some (100000 * u + 10000 * v + 1000 * w + 100 * x + 10 * y + z, rest)
    | _, _, _, _, _, _ => none
  | _ => none

theorem read2_pad2 {n : Nat} (h : n < 100) (rest : List Char) :
    read2 (pad2 n ++ rest) = some (n, rest) := by
  have h1 : n / 10 ≤ 9 := by omega
  have h2 : n % 10 ≤ 9 := by omega
  simp only [pad2, List.cons_append, List.nil_append, read2,
    readDigit_digitChar h1, readDigit_digitChar h2]
  have hn : 10 * (n / 10) + n % 10 = n := by omega
  rw [hn]

theorem read4_pad4 {n : Nat} (h : n ≤ 9999) (rest : List Char) :
    read4 (pad4 n ++ rest) = some (n, rest) := by
  have h1 : n / 1000 ≤ 9 := by omega
  have h2 : n / 100 % 10 ≤ 9 := by omega
  have h3 : n / 10 % 10 ≤ 9 := by omega
  have h4 : n % 10 ≤ 9 := by omega
  simp only [pad4, List.cons_append, List.nil_append, read4,
    readDigit_digitChar h1, readDigit_digitChar h2,
    readDigit_digitChar h3, readDigit_digitChar h4]
  have hn : 1000 * (n / 1000) + 100 * (n / 100 % 10) + 10 * (n / 10 % 10) + n % 10 = n := by
    omega
  rw [hn]

theorem read6_pad6 {n : Nat} (h : n ≤ 999999) (rest : List Char) :
    read6 (pad6 n ++ rest) = some (n, rest) := by
  have h1 : n / 100000 ≤ 9 := by omega
  have h2 : n / 10000 % 10 ≤ 9 := by omega
  have h3 : n / 1000 % 10 ≤ 9 := by omega
  have h4 : n / 100 % 10 ≤ 9 := by omega
  have h5 : n / 10 % 10 ≤ 9 := by omega
  have h6 : n % 10 ≤ 9 := by omega
  simp only [pad6, List.cons_append, List.nil_append, read6,
    readDigit_digitChar h1, readDigit_digitChar h2, readDigit_digitChar h3,
    readDigit_digitChar h4, readDigit_digitChar h5, readDigit_digitChar h6]
  have hn : 100000 * (n / 100000) + 10000 * (n / 10000 % 10) + 1000 * (n / 1000 % 10)
      + 100 * (n / 100 % 10) + 10 * (n / 10 % 10) + n % 10 = n := by
    omega
  rw [hn]

/-- Expect one specific character. -/
def expectChar (c : Char) : List Char → Option (List Char)
  | x :: rest => if x = c then some rest else none
  | [] => none

theorem expectChar_cons (c : Char) (rest : List Char) :
    expectChar c (c :: rest) = some rest := by
  simp [expectChar]

/-! ## Python `datetime` model -/

/-- Model of a Python `datetime` value.  `offsetMinutes = none` models a
naive datetime; `some o` models an aware datetime whose `utcoffset()` is
`o` minutes (the repository only produces whole-minute offsets). -/
structure PyDateTime where
  year : Nat
  month : Nat
  day : Nat
  hour : Nat
  minute : Nat
  second : Nat
  microsecond : Nat
  offsetMinutes : Option Int
deriving DecidableEq, Repr

/-- Gregorian leap-year test. -/
def isLeapYear (y : Nat) : Bool :=
  y % 4 == 0 && (y % 100 != 0 || y % 400 == 0)

/-- Days in a Gregorian month. -/
def daysInMonth (y m : Nat) : Nat :=
  if m = 2 then (if isLeapYear y then 29 else 28)
  else if m = 4 ∨ m = 6 ∨ m = 9 ∨ m = 11 then 30 else 31

theorem daysInMonth_pos (y m : Nat) : 1 ≤ daysInMonth y m := by
  unfold daysInMonth
  split
  · split <;> omega
  · split <;> omega

theorem daysInMonth_le (y m : Nat) : daysInMonth y m ≤ 31 := by
  unfold daysInMonth
  split
  · split <;> omega
  · split <;> omega

/-- The field ranges Python's `datetime` constructor enforces (and hence
every `datetime` object satisfies). -/
def validDateTime (d : PyDateTime) : Bool :=
  1 ≤ d.year && d.year ≤ 9999 && 1 ≤ d.month && d.month ≤ 12 &&
  1 ≤ d.day && d.day ≤ daysInMonth d.year d.month &&
  d.hour ≤ 23 && d.minute ≤ 59 && d.second ≤ 59 && d.microsecond ≤ 999999 &&
  (match d.offsetMinutes with
   | none => true
   | some o => decide (-1439 ≤ o ∧ o ≤ 1439))

/-- Days since 1970-01-01 of a Gregorian civil date (standard
days-from-civil algorithm); used to compare datetimes as instants, the
way Python compares aware datetimes. -/
def daysFromCivil (y m d : Nat) : Int :=
  let y' : Int := if m ≤ 2 then (y : Int) - 1 else (y : Int)
  let era : Int := (if 0 ≤ y' then y' else y' - 399) / 400
  let yoe : Int := y' - era * 400
  let mp : Int := ((m : Int) + 9) % 12
  let doy : Int := (153 * mp + 2) / 5 + (d : Int) - 1
  let doe : Int := yoe * 365 + yoe / 4 - yoe / 100 + doy
  era * 146097 + doe - 719468

/-- The instant a datetime denotes, in microseconds since the epoch
(for naive datetimes: as if the offset were zero, which matches Python's
field-lexicographic naive/naive comparison on valid datetimes). -/
def instantMicros (d : PyDateTime) : Int :=
  ((daysFromCivil d.year d.month d.day) * 86400
    + d.hour * 3600 + d.minute * 60 + d.second
    - 60 * d.offsetMinutes.getD 0) * 1000000 + d.microsecond

/-- Python comparison `a <= b` on datetimes: aware/aware and naive/naive
compare as instants, mixed comparison raises `TypeError` (`none`). -/
def dtLe (a b : PyDateTime) : Option Bool :=
  if a.offsetMinutes.isSome = b.offsetMinutes.isSome then
    some (decide (instantMicros a ≤ instantMicros b))
  else none

/-! ## `datetime.isoformat` and `datetime.fromisoformat` -/

/-- `utcoffset` rendering inside `isoformat`: sign, then `HH:MM`. -/
def offsetChars (o : Int) : List Char :=
  (if o < 0 then '-' else '+') ::
    (pad2 (o.natAbs / 60) ++ ':' :: pad2 (o.natAbs % 60))

/-- `datetime.isoformat()` as a character list:
`YYYY-MM-DDTHH:MM:SS[.ffffff][±HH:MM]`; the microsecond part is omitted
when zero, the offset part is omitted for naive datetimes. -/
def isoChars (d : PyDateTime) : List Char :=
  pad4 d.year ++ '-' :: (pad2 d.month ++ '-' :: (pad2 d.day ++ 'T' ::
    (pad2 d.hour ++ ':' :: (pad2 d.minute ++ ':' :: (pad2 d.second
  ++ (if d.microsecond = 0 then [] else '.' :: pad6 d.microsecond)
  ++ (match d.offsetMinutes with
      | none => []
      | some o => offsetChars o))))))

/-- `datetime.isoformat()`. -/
def isoformat (d : PyDateTime) : String := ⟨isoChars d⟩

/-- Optional fractional-second part (exactly six digits, as emitted by
`isoformat` for nonzero microseconds). -/
def readFrac : List Char → Option (Nat × List Char)
  | c :: rest => if c = '.' then read6 rest else some (0, c :: rest)
  | [] => some (0, [])

/-- Optional UTC-offset part `±HH:MM` (the form `isoformat` emits);
hours and minutes are range-checked as Python does. -/
def readOffset : List Char → Option (Option Int × List Char)
  | [] => some (none, [])
  | c :: rest =>
    if c = '+' ∨ c = '-' then
      match read2 rest with
      | none => none
      | some (h, r1) =>
        match expectChar ':' r1 with
        | none => none
        | some r2 =>
          match read2 r2 with
          | none => none
          | some (m, r3) =>
            if h ≤ 23 ∧ m ≤ 59 then
              some (some (if c = '-' then -(h * 60 + m : Int) else (h * 60 + m : Int)), r3)
            else none
    else none

/-- `datetime.fromisoformat`, modelled on the grammar `isoformat` emits
(the only inputs the repository feeds it are its own `isoformat` output);
field ranges are validated as Python does. -/
def fromIsoChars (cs : List Char) : Option PyDateTime :=
  match read4 cs with
  | none => none
  | some (y, r1) =>
  match expectChar '-' r1 with
  | none => none
  | some r2 =>
  match read2 r2 with
  | none => none
  | some (mo, r3) =>
  match expectChar '-' r3 with
  | none => none
  | some r4 =>
  match read2 r4 with
  | none => none
  | some (d, r5) =>
  match expectChar 'T' r5 with
  | none => none
  | some r6 =>
  match read2 r6 with
  | none => none
  | some (h, r7) =>
  match expectChar ':' r7 with
  | none => none
  | some r8 =>
  match read2 r8 with
  | none => none
  | some (mi, r9) =>
  match expectChar ':' r9 with
  | none => none
  | some r10 =>
  match read2 r10 with
  | none => none
  | some (s, r11) =>
  match readFrac r11 with
  | none => none
  | some (us, r12) =>
  match readOffset r12 with
  | none => none
  | some (off, r13) =>
    let dt : PyDateTime := ⟨y, mo, d, h, mi, s, us, off⟩
    if r13 = [] ∧ validDateTime dt = true then some dt else none

/-- `datetime.fromisoformat` on a string. -/
def fromisoformat (s : String) : Option PyDateTime := fromIsoChars s.data

theorem readFrac_cons_ne {c : Char} (cs : List Char) (h : ¬ c = '.') :
    readFrac (c :: cs) = some (0, c :: cs) := by
  simp [readFrac, h]

theorem readFrac_dot {us : Nat} (h : us ≤ 999999) (rest : List Char) :
    readFrac ('.' :: (pad6 us ++ rest)) = some (us, rest) := by
  simp [readFrac, read6_pad6 h]

theorem readFrac_offsetChars (o : Int) :
    readFrac (offsetChars o) = some (0, offsetChars o) := by
  unfold offsetChars
  apply readFrac_cons_ne
  split <;> decide


theorem read2_pad2_nil {n : Nat} (h : n < 100) : read2 (pad2 n) = some (n, []) := by
  simpa using read2_pad2 h []

theorem readFrac_dot_nil {us : Nat} (h : us ≤ 999999) :
    readFrac ('.' :: pad6 us) = some (us, []) := by
  simpa using readFrac_dot h []

theorem readOffset_offsetChars {o : Int} (ho : -1439 ≤ o ∧ o ≤ 1439) :
    readOffset (offsetChars o) = some (some o, []) := by
  have h60 : o.natAbs / 60 ≤ 23 := by omega
  have h60' : o.natAbs % 60 ≤ 59 := by omega
  have hr1 : read2 (pad2 (o.natAbs / 60) ++ ':' :: pad2 (o.natAbs % 60))
      = some (o.natAbs / 60, ':' :: pad2 (o.natAbs % 60)) :=
    read2_pad2 (by omega) _
  have hr2 : read2 (pad2 (o.natAbs % 60)) = some (o.natAbs % 60, []) :=
    read2_pad2_nil (by omega)
  have hplus : (('+' : Char) = '-') ↔ False := by decide
  by_cases hneg : o < 0
  · have hsign : (if o < 0 then '-' else '+') = '-' := if_pos hneg
    simp only [offsetChars, hsign, readOffset, hr1, expectChar_cons, hr2, h60, h60']
    simp only [show (('-' : Char) = '+' ∨ ('-' : Char) = '-') ↔ True by simp, if_true,
      if_pos (And.intro h60 h60'), if_pos (rfl : ('-' : Char) = '-')]
    have hval : -(((o.natAbs / 60 : Nat) : Int) * 60 + ((o.natAbs % 60 : Nat) : Int)) = o := by
      omega
    rw [hval]
    simp
  · have hsign : (if o < 0 then '-' else '+') = '+' := if_neg hneg
    simp only [offsetChars, hsign, readOffset, hr1, expectChar_cons, hr2, h60, h60']
    simp only [show (('+' : Char) = '+' ∨ ('+' : Char) = '-') ↔ True by simp, if_true,
      if_pos (And.intro h60 h60'), if_neg (by decide : ¬ ('+' : Char) = '-')]
    have hval : (((o.natAbs / 60 : Nat) : Int) * 60 + ((o.natAbs % 60 : Nat) : Int)) = o := by
      omega
    rw [hval]
    simp

/-- Unpacked form of `validDateTime`. -/
theorem validDateTime_iff (d : PyDateTime) :
    validDateTime d = true ↔
      1 ≤ d.year ∧ d.year ≤ 9999 ∧ 1 ≤ d.month ∧ d.month ≤ 12 ∧
      1 ≤ d.day ∧ d.day ≤ daysInMonth d.year d.month ∧
      d.hour ≤ 23 ∧ d.minute ≤ 59 ∧ d.second ≤ 59 ∧ d.microsecond ≤ 999999 ∧
      (∀ o, d.offsetMinutes = some o → -1439 ≤ o ∧ o ≤ 1439) := by
  unfold validDateTime
  cases hoff : d.offsetMinutes with
  | none => simp [hoff, and_assoc]
  | some o =>
    simp only [hoff, Bool.and_eq_true, decide_eq_true_eq]
    constructor
    · rintro ⟨⟨⟨⟨⟨⟨⟨⟨⟨⟨h1, h2⟩, h3⟩, h4⟩, h5⟩, h6⟩, h7⟩, h8⟩, h9⟩, h10⟩, h11⟩
      refine ⟨by simpa using h1, by simpa using h2, by simpa using h3, by simpa using h4,
        by simpa using h5, by simpa using h6, by simpa using h7, by simpa using h8,
        by simpa using h9, by simpa using h10, ?_⟩
      rintro o' ho'
      cases Option.some.inj ho'
      exact h11
    · rintro ⟨h1, h2, h3, h4, h5, h6, h7, h8, h9, h10, h11⟩
      exact ⟨⟨⟨⟨⟨⟨⟨⟨⟨⟨by simpa using h1, by simpa using h2⟩, by simpa using h3⟩,
        by simpa using h4⟩, by simpa using h5⟩, by simpa using h6⟩, by simpa using h7⟩,
        by simpa using h8⟩, by simpa using h9⟩, by simpa using h10⟩, h11 o rfl⟩

/-- The ISO round trip: `fromisoformat` inverts `isoformat` on every
valid datetime (aware or naive). -/
theorem fromisoformat_isoformat {d : PyDateTime} (h : validDateTime d = true) :
    fromisoformat (isoformat d) = some d := by
  obtain ⟨hy1, hy2, hmo1, hmo2, hd1, hd2, hh, hmi, hs, hus, hoff⟩ :=
    (validDateTime_iff d).1 h
  have hdlt : d.day < 100 := by
    have := daysInMonth_le d.year d.month
    omega
  show fromIsoChars (isoChars d) = some d
  cases hoffv : d.offsetMinutes with
  | none =>
    by_cases hz : d.microsecond = 0
    · have hdt : (⟨d.year, d.month, d.day, d.hour, d.minute, d.second, 0, none⟩
          : PyDateTime) = d := by
        rw [← hz, ← hoffv]
      have hiso : isoChars d = pad4 d.year ++ '-' :: (pad2 d.month ++ '-' :: (pad2 d.day
          ++ 'T' :: (pad2 d.hour ++ ':' :: (pad2 d.minute ++ ':' :: pad2 d.second)))) := by
        simp [isoChars, hz, hoffv]
      simp only [fromIsoChars, hiso, read4_pad4 hy2, expectChar_cons,
        read2_pad2 (show d.month < 100 by omega), read2_pad2 (show d.day < 100 by omega),
        read2_pad2 (show d.hour < 100 by omega), read2_pad2 (show d.minute < 100 by omega),
        read2_pad2_nil (show d.second < 100 by omega), readFrac, readOffset]
      rw [hdt]
      simp [h]
    · have hdt : (⟨d.year, d.month, d.day, d.hour, d.minute, d.second, d.microsecond, none⟩
          : PyDateTime) = d := by
        rw [← hoffv]
      have hiso : isoChars d = pad4 d.year ++ '-' :: (pad2 d.month ++ '-' :: (pad2 d.day
          ++ 'T' :: (pad2 d.hour ++ ':' :: (pad2 d.minute ++ ':' :: (pad2 d.second
          ++ '.' :: pad6 d.microsecond))))) := by
        simp [isoChars, hz, hoffv]
      simp only [fromIsoChars, hiso, read4_pad4 hy2, expectChar_cons,
        read2_pad2 (show d.month < 100 by omega), read2_pad2 (show d.day < 100 by omega),
        read2_pad2 (show d.hour < 100 by omega), read2_pad2 (show d.minute < 100 by omega),
        read2_pad2 (show d.second < 100 by omega), readFrac_dot_nil hus, readOffset]
      rw [hdt]
      simp [h]
  | some o =>
    have hob := hoff o hoffv
    by_cases hz : d.microsecond = 0
    · have hdt : (⟨d.year, d.month, d.day, d.hour, d.minute, d.second, 0, some o⟩
          : PyDateTime) = d := by
        rw [← hz, ← hoffv]
      have hiso : isoChars d = pad4 d.year ++ '-' :: (pad2 d.month ++ '-' :: (pad2 d.day
          ++ 'T' :: (pad2 d.hour ++ ':' :: (pad2 d.minute ++ ':' :: (pad2 d.second
          ++ offsetChars o))))) := by
        simp [isoChars, hz, hoffv]
      simp only [fromIsoChars, hiso, read4_pad4 hy2, expectChar_cons,
        read2_pad2 (show d.month < 100 by omega), read2_pad2 (show d.day < 100 by omega),
        read2_pad2 (show d.hour < 100 by omega), read2_pad2 (show d.minute < 100 by omega),
        read2_pad2 (show d.second < 100 by omega), readFrac_offsetChars,
        readOffset_offsetChars hob]
      rw [hdt]
      simp [h]
    · have hdt : (⟨d.year, d.month, d.day, d.hour, d.minute, d.second, d.microsecond, some o⟩
          : PyDateTime) = d := by
        rw [← hoffv]
      have hiso : isoChars d = pad4 d.year ++ '-' :: (pad2 d.month ++ '-' :: (pad2 d.day
          ++ 'T' :: (pad2 d.hour ++ ':' :: (pad2 d.minute ++ ':' :: (pad2 d.second
          ++ '.' :: (pad6 d.microsecond ++ offsetChars o)))))) := by
        simp [isoChars, hz, hoffv]
      simp only [fromIsoChars, hiso, read4_pad4 hy2, expectChar_cons,
        read2_pad2 (show d.month < 100 by omega), read2_pad2 (show d.day < 100 by omega),
        read2_pad2 (show d.hour < 100 by omega), read2_pad2 (show d.minute < 100 by omega),
        read2_pad2 (show d.second < 100 by omega), readFrac_dot hus,
        readOffset_offsetChars hob]
      rw [hdt]
      simp [h]

/-! ## JSON values and the message store

`Json` is the parsed content of the snapshot file (`json.load` output /
`json.dump` input); `json.dump`/`json.load` are collaborators assumed to
round-trip this tree exactly.  A `PyMsg` is one message dict as held in
`message_store`: its values are either plain JSON data (`PyField.js`) or a
`datetime` object (`PyField.time`), exactly the two kinds of values the
program ever stores there. -/

inductive Json where
  | null : Json
  | bool : Bool → Json
  | num : Int → Json
  | str : String → Json
  | arr : List Json → Json
  | obj : List (String × Json) → Json
deriving Repr

/-- A value held in a message dict. -/
inductive PyField where
  | js : Json → PyField
  | time : PyDateTime → PyField
deriving Repr

/-- One message dict (`{'sender': ..., 'text': ..., 'timestamp': ...}`,
though load keeps whatever keys the file had). -/
abbrev PyMsg := List (String × PyField)

/-- `message_store`: conversation id → message id → message dict.
Association lists model Python dicts (unique keys, insertion order). -/
abbrev Store := List (String × List (String × PyMsg))

/-- Python dict lookup `d[k]` / `d.get(k)` (first binding wins). -/
def alookup {α : Type} (k : String) : List (String × α) → Option α
  | [] => none
  | (k', v) :: rest => if k' = k then some v else alookup k rest

/-- Python dict assignment `d[k] = v`: replace in place if the key
exists, else append at the end. -/
def dinsert {α : Type} (k : String) (v : α) : List (String × α) → List (String × α)
  | [] => [(k, v)]
  | (k', v') :: rest => if k' = k then (k, v) :: rest else (k', v') :: dinsert k v rest

/-- The uncaught-able Python exceptions relevant to
`load_messages_from_file`. -/
inductive PyErr where
  | attributeError : PyErr
  | typeError : PyErr
  | keyError : PyErr
  | valueError : PyErr
deriving DecidableEq, Repr

/-! ## `save_messages_to_file` (chatd.py lines 137-167) -/

/-- The batching gate of `save_messages_to_file`: the counter is
incremented on every call; the write body runs only when `force` is set
or the counter has reached `SAVE_BATCH_SIZE = 10`, and the counter is
reset exactly when the body runs.  Returns the new counter and whether
the write body ran. -/
def saveStep (force : Bool) (counter : Nat) : Nat × Bool :=
  let c := counter + 1
  if force = false ∧ c < 10 then (c, false) else (0, true)

/-- A sequence of `save_messages_to_file` calls: fold `saveStep` over the
list of `force` flags, collecting which calls wrote. -/
def runSaves : List Bool → Nat → Nat × List Bool
  | [], c => (c, [])
  | f :: rest, c =>
    let (c', wrote) := saveStep f c
    let (c'', ws) := runSaves rest c'
    (c'', wrote :: ws)

/-- Left-to-right traversal over `Option` (first failure wins), the
effect order of the Python loops and comprehensions modelled below. -/
def omapM {α β : Type} (f : α → Option β) : List α → Option (List β)
  | [] => some []
  | a :: t =>
    match f a, omapM f t with
    | some b, some bs => some (b :: bs)
    | _, _ => none

/-- Left-to-right traversal over `Except` (first exception wins). -/
def emapM {ε α β : Type} (f : α → Except ε β) : List α → Except ε (List β)
  | [] => .ok []
  | a :: t =>
    match f a with
    | .error e => .error e
    | .ok b =>
      match emapM f t with
      | .error e => .error e
      | .ok bs => .ok (b :: bs)

/-- Serialization of one dict value inside
`{**msg, 'timestamp': msg['timestamp'].isoformat()}`: the timestamp key
is replaced by its ISO string; any other value must be plain JSON data
(a stray `datetime` elsewhere would make `json.dump` raise `TypeError`,
which the function catches, abandoning the write). -/
def serializeField (dt : PyDateTime) : String × PyField → Option (String × Json)
  | (k, f) =>
    if k = "timestamp" then some (k, .str (isoformat dt))
    else
      match f with
      | .js j => some (k, j)
      | .time _ => none

/-- Serialization of one message dict; `none` models the exception path
of `save_messages_to_file` (missing/non-datetime timestamp raises
`KeyError`/`AttributeError`, both caught: the save is abandoned). -/
def serializeMsg (m : PyMsg) : Option (List (String × Json)) :=
  match alookup "timestamp" m with
  | some (.time dt) => omapM (serializeField dt) m
  | _ => none

/-- `serializable_data` built by `save_messages_to_file`: the JSON tree
written (atomically) to the snapshot file when the write fires. `none`
models the caught-exception path in which no write happens. -/
def serializeChat (msgs : List (String × PyMsg)) : Option (List (String × Json)) :=
  omapM (fun mm =>
    match serializeMsg mm.2 with
    | none => none
    | some mj => some (mm.1, Json.obj mj)) msgs

def saveJson (s : Store) : Option Json :=
  match omapM (fun cm =>
      match serializeChat cm.2 with
      | none => none
      | some msgs => some (cm.1, Json.obj msgs)) s with
  | none => none
  | some chats => some (Json.obj chats)

/-! ## `load_messages_from_file` (chatd.py lines 109-129) -/

/-- In-place update `message['timestamp'] = dt` applied by the load
loop: the timestamp binding becomes a datetime, everything else is kept
as plain JSON. -/
def loadField (dt : PyDateTime) : String × Json → String × PyField
  | (k, j) => if k = "timestamp" then (k, .time dt) else (k, .js j)

/-- The body of the inner load loop for one message dict:
`message['timestamp'] = datetime.fromisoformat(message['timestamp'])`.
Non-dict message: subscripting raises `TypeError`; missing key:
`KeyError`; non-string timestamp: `fromisoformat` raises `TypeError`;
unparseable string: `ValueError`. -/
def loadMsg : Json → Except PyErr PyMsg
  | .obj kvs =>
    match alookup "timestamp" kvs with
    | none => .error .keyError
    | some (.str s) =>
      match fromisoformat s with
      | some dt => .ok (kvs.map (loadField dt))
      | none => .error .valueError
    | some _ => .error .typeError
  | _ => .error .typeError

/-- The load loop over `messages.values()` of one conversation; a
non-dict raises `AttributeError` at `.values()`. -/
def loadChat : Json → Except PyErr (List (String × PyMsg))
  | .obj kvs =>
    emapM (fun mm =>
      match loadMsg mm.2 with
      | .error e => .error e
      | .ok m => .ok (mm.1, m)) kvs
  | _ => .error .attributeError

/-- The load loop over `data.items()`; a non-dict top level raises
`AttributeError`. -/
def loadData : Json → Except PyErr Store
  | .obj kvs =>
    emapM (fun cm =>
      match loadChat cm.2 with
      | .error e => .error e
      | .ok c => .ok (cm.1, c)) kvs
  | _ => .error .attributeError

/-- Outcome of `load_messages_from_file`. -/
inductive LoadResult where
  | ok : Store → LoadResult
  | renamedBackupEmpty : LoadResult
  | crash : PyErr → LoadResult

/-- `load_messages_from_file`.  The argument models the snapshot file:
`none` = file absent; `some none` = file present but `json.load` raises
`JSONDecodeError`; `some (some j)` = file parses to `j`.  Only
`JSONDecodeError`, `KeyError` and `ValueError` are caught (renaming the
file to a timestamped backup and returning an empty store); any other
exception escapes (`crash`). -/
def loadFile (file : Option (Option Json)) : LoadResult :=
  match file with
  | none => .ok []
  | some none => .renamedBackupEmpty
  | some (some j) =>
    match loadData j with
    | .ok s => .ok s
    | .error .keyError => .renamedBackupEmpty
    | .error .valueError => .renamedBackupEmpty
    | .error e => .crash e

/-! ## `message_handler` append (chatd.py lines 636-644) -/

/-- Model of `message.date.replace(tzinfo=pytz.UTC).astimezone(moscow_tz)`:
the civil fields are read as UTC (whatever tzinfo the incoming value
carried is discarded by `replace`) and converted to Europe/Moscow,
modelled as fixed UTC+3 — its offset throughout the era in which this
program can run (constant since 2014). -/
def utcToMoscow (d : PyDateTime) : PyDateTime :=
  let h := d.hour + 3
  if h ≤ 23 then
    { d with hour := h, offsetMinutes := some 180 }
  else if d.day < daysInMonth d.year d.month then
    { d with day := d.day + 1, hour := h - 24, offsetMinutes := some 180 }
  else if d.month < 12 then
    { d with month := d.month + 1, day := 1, hour := h - 24, offsetMinutes := some 180 }
  else
    { d with year := d.year + 1, month := 1, day := 1, hour := h - 24,
             offsetMinutes := some 180 }

/-- The message dict built by `message_handler`:
`{'sender': ..., 'text': ..., 'timestamp': <aware Moscow datetime>}`. -/
def appendRecord (sender text : String) (dt : PyDateTime) : PyMsg :=
  [("sender", .js (.str sender)), ("text", .js (.str text)), ("timestamp", .time dt)]

/-- The store mutation in `message_handler`: create the conversation's
dict if absent, then assign
`message_store[chat_id][str(message.message_id)] = {...}`; `d` is the
raw `message.date`, converted to Moscow time on store. -/
def appendMsg (cid mid sender text : String) (d : PyDateTime) (s : Store) : Store :=
  let r := appendRecord sender text (utcToMoscow d)
  match alookup cid s with
  | none => s ++ [(cid, [(mid, r)])]
  | some msgs => dinsert cid (dinsert mid r msgs) s

/-- A message dict as `append` produces it: the three fixed keys, with a
valid timestamp aware in the canonical (Moscow) zone. -/
def GoodMsg (m : PyMsg) : Prop :=
  ∃ sender text dt, m = appendRecord sender text dt ∧
    validDateTime dt = true ∧ dt.offsetMinutes = some 180

/-- Every record of the store was produced by `append`. -/
def GoodStore (s : Store) : Prop :=
  ∀ c ∈ s, ∀ p ∈ c.2, GoodMsg p.2

/-- Reachable states of `message_store`: created empty, mutated by the
`message_handler` append (with a real — hence field-valid, pre-9999 —
arrival time), or replaced by a save/load persistence cycle. -/
inductive ReachableStore : Store → Prop where
  | init : ReachableStore []
  | append : ∀ (s : Store) (cid mid sender text : String) (d : PyDateTime),
      ReachableStore s → validDateTime d = true → d.year ≤ 9998 →
      ReachableStore (appendMsg cid mid sender text d s)
  | persist : ∀ (s : Store) (j : Json) (s' : Store),
      ReachableStore s → saveJson s = some j → loadFile (some (some j)) = .ok s' →
      ReachableStore s'

theorem utcToMoscow_valid {d : PyDateTime} (h : validDateTime d = true)
    (hy : d.year ≤ 9998) :
    validDateTime (utcToMoscow d) = true ∧ (utcToMoscow d).offsetMinutes = some 180 := by
  obtain ⟨h1, h2, h3, h4, h5, h6, h7, h8, h9, h10, _⟩ := (validDateTime_iff d).1 h
  unfold utcToMoscow
  by_cases hc1 : d.hour + 3 ≤ 23
  · rw [if_pos hc1]
    refine ⟨(validDateTime_iff _).2 ?_, rfl⟩
    dsimp only
    refine ⟨h1, h2, h3, h4, h5, h6, by omega, h8, h9, h10, ?_⟩
    rintro o ho
    cases Option.some.inj ho
    constructor <;> omega
  · rw [if_neg hc1]
    by_cases hc2 : d.day < daysInMonth d.year d.month
    · rw [if_pos hc2]
      refine ⟨(validDateTime_iff _).2 ?_, rfl⟩
      dsimp only
      refine ⟨h1, h2, h3, h4, by omega, by omega, by omega, h8, h9, h10, ?_⟩
      rintro o ho
      cases Option.some.inj ho
      constructor <;> omega
    · rw [if_neg hc2]
      by_cases hc3 : d.month < 12
      · rw [if_pos hc3]
        refine ⟨(validDateTime_iff _).2 ?_, rfl⟩
        dsimp only
        have hdm := daysInMonth_pos d.year (d.month + 1)
        refine ⟨h1, h2, by omega, by omega, by omega, hdm, by omega, h8, h9, h10, ?_⟩
        rintro o ho
        cases Option.some.inj ho
        constructor <;> omega
      · rw [if_neg hc3]
        refine ⟨(validDateTime_iff _).2 ?_, rfl⟩
        dsimp only
        have hdm := daysInMonth_pos (d.year + 1) 1
        refine ⟨by omega, by omega, by omega, by omega, by omega, hdm, by omega,
          h8, h9, h10, ?_⟩
        rintro o ho
        cases Option.some.inj ho
        constructor <;> omega

theorem mem_dinsert {α : Type} {k : String} {v : α} :
    ∀ {l : List (String × α)} {x}, x ∈ dinsert k v l → x = (k, v) ∨ x ∈ l := by
  intro l
  induction l with
  | nil => intro x hx; simp [dinsert] at hx; exact Or.inl hx
  | cons p t ih =>
    intro x hx
    simp only [dinsert] at hx
    split at hx
    · rcases List.mem_cons.1 hx with h | h
      · exact Or.inl h
      · exact Or.inr (List.mem_cons_of_mem _ h)
    · rcases List.mem_cons.1 hx with h | h
      · exact Or.inr (h ▸ List.mem_cons_self _ _)
      · rcases ih h with h' | h'
        · exact Or.inl h'
        · exact Or.inr (List.mem_cons_of_mem _ h')

theorem alookup_mem {α : Type} {k : String} {v : α} :
    ∀ {l : List (String × α)}, alookup k l = some v → (k, v) ∈ l := by
  intro l
  induction l with
  | nil => intro h; simp [alookup] at h
  | cons p t ih =>
    intro h
    simp only [alookup] at h
    split at h
    · cases Option.some.inj h
      rename_i heq
      exact heq ▸ List.mem_cons_self _ _
    · exact List.mem_cons_of_mem _ (ih h)

theorem serializeMsg_appendRecord (sender text : String) (dt : PyDateTime) :
    serializeMsg (appendRecord sender text dt) =
      some [("sender", .str sender), ("text", .str text),
            ("timestamp", .str (isoformat dt))] := rfl

theorem loadMsg_serialized (sender text : String) (dt : PyDateTime)
    (hv : validDateTime dt = true) :
    loadMsg (.obj [("sender", .str sender), ("text", .str text),
      ("timestamp", .str (isoformat dt))]) = .ok (appendRecord sender text dt) := by
  have h1 : alookup "timestamp" [("sender", Json.str sender), ("text", Json.str text),
      ("timestamp", Json.str (isoformat dt))] = some (Json.str (isoformat dt)) := rfl
  simp only [loadMsg, h1, fromisoformat_isoformat hv]
  rfl

theorem chat_roundtrip {msgs : List (String × PyMsg)} (h : ∀ p ∈ msgs, GoodMsg p.2) :
    ∃ ml, serializeChat msgs = some ml ∧ loadChat (.obj ml) = .ok msgs := by
  induction msgs with
  | nil => exact ⟨[], rfl, rfl⟩
  | cons p t ih =>
    obtain ⟨sender, text, dt, hm, hv, _⟩ := h p (by simp)
    obtain ⟨ml, hs, hl⟩ := ih (fun x hx => h x (by simp [hx]))
    refine ⟨(p.1, Json.obj [("sender", .str sender), ("text", .str text),
        ("timestamp", .str (isoformat dt))]) :: ml, ?_, ?_⟩
    · unfold serializeChat at hs ⊢
      simp only [omapM, hm, serializeMsg_appendRecord, hs]
    · simp only [loadChat] at hl ⊢
      simp only [emapM, loadMsg_serialized sender text dt hv, hl, ← hm]

theorem store_roundtrip {s : Store} (h : GoodStore s) :
    ∃ j, saveJson s = some j ∧ loadData j = .ok s := by
  induction s with
  | nil => exact ⟨.obj [], rfl, rfl⟩
  | cons c t ih =>
    obtain ⟨cj, hcs, hcl⟩ := chat_roundtrip (fun p hp => h c (by simp) p hp)
    obtain ⟨j, hs, hl⟩ := ih (fun c' hc' p hp => h c' (by simp [hc']) p hp)
    obtain ⟨chats, hchats⟩ : ∃ chats, j = Json.obj chats := by
      unfold saveJson at hs
      cases hmm : omapM (fun cm =>
          match serializeChat cm.2 with
          | none => none
          | some msgs => some (cm.1, Json.obj msgs)) t with
      | none => rw [hmm] at hs; simp at hs
      | some l =>
        rw [hmm] at hs
        exact ⟨l, (Option.some.inj hs).symm⟩
    refine ⟨.obj ((c.1, Json.obj cj) :: chats), ?_, ?_⟩
    · unfold saveJson at hs ⊢
      cases hmm : omapM (fun cm =>
          match serializeChat cm.2 with
          | none => none
          | some msgs => some (cm.1, Json.obj msgs)) t with
      | none => rw [hmm] at hs; simp at hs
      | some l =>
        rw [hmm] at hs
        have hlj : Json.obj l = j := Option.some.inj hs
        rw [hchats] at hlj
        have : l = chats := by
          cases hlj
          rfl
        subst this
        simp only [omapM, hcs, hmm]
    · rw [hchats] at hl
      simp only [loadData] at hl ⊢
      simp only [emapM, hcl, hl]

theorem GoodStore_append {s : Store} (h : GoodStore s) (cid mid sender text : String)
    {d : PyDateTime} (hv : validDateTime d = true) (hy : d.year ≤ 9998) :
    GoodStore (appendMsg cid mid sender text d s) := by
  obtain ⟨hval, hoff⟩ := utcToMoscow_valid hv hy
  have hgood : GoodMsg (appendRecord sender text (utcToMoscow d)) :=
    ⟨sender, text, utcToMoscow d, rfl, hval, hoff⟩
  intro c hc p hp
  unfold appendMsg at hc
  cases hl : alookup cid s with
  | none =>
    rw [hl] at hc
    rcases List.mem_append.1 hc with h1 | h1
    · exact h c h1 p hp
    · have hce : c = (cid, [(mid, appendRecord sender text (utcToMoscow d))]) := by
        simpa using h1
      rw [hce] at hp
      have hpe : p = (mid, appendRecord sender text (utcToMoscow d)) := by
        simpa using hp
      rw [hpe]
      exact hgood
  | some msgs =>
    rw [hl] at hc
    rcases mem_dinsert hc with h1 | h1
    · rw [h1] at hp
      rcases mem_dinsert hp with h2 | h2
      · rw [h2]
        exact hgood
      · exact h (cid, msgs) (alookup_mem hl) p h2
    · exact h c h1 p hp

theorem reachable_good {s : Store} (h : ReachableStore s) : GoodStore s := by
  induction h with
  | init => intro c hc; simp at hc
  | append s cid mid sender text d _ hv hy ih => exact GoodStore_append ih cid mid sender text hv hy
  | persist s j s' _ hsave hload ih =>
    obtain ⟨j0, hs0, hl0⟩ := store_roundtrip ih
    rw [hsave] at hs0
    have hj : j = j0 := Option.some.inj hs0
    subst hj
    have hfile : loadFile (some (some j)) = .ok s := by
      simp only [loadFile, hl0]
    rw [hload] at hfile
    cases hfile
    exact ih

/-- **C1** (Persistence round-trip).  For every message store whose
records were inserted by `append` — each a `{'sender','text','timestamp'}`
dict with a (field-valid) timestamp aware in the canonical Moscow zone —
the snapshot a forced save writes loads back to a store *equal* to the
original: same conversation ids, same message ids, same sender and text,
and identical timestamps (hence the same instant, a fortiori equal at
second precision). -/
theorem claim1_save_load_roundtrip (s : Store) (h : GoodStore s) :
    ∃ j, saveJson s = some j ∧ loadFile (some (some j)) = .ok s := by
  obtain ⟨j, hs, hl⟩ := store_roundtrip h
  exact ⟨j, hs, by simp only [loadFile, hl]⟩

/-- Witness for C1 at a concrete one-conversation, one-message store. -/
theorem claim1_witness :
    ∃ j, saveJson [("c1", [("m1", appendRecord "Alice" "hi"
        ⟨2024, 7, 20, 12, 30, 5, 123, some 180⟩)])] = some j ∧
      loadFile (some (some j)) = .ok [("c1", [("m1", appendRecord "Alice" "hi"
        ⟨2024, 7, 20, 12, 30, 5, 123, some 180⟩)])] := by
  apply claim1_save_load_roundtrip
  intro c hc p hp
  have hce : c = ("c1", [("m1", appendRecord "Alice" "hi"
      (⟨2024, 7, 20, 12, 30, 5, 123, some 180⟩ : PyDateTime))]) := by
    simpa using hc
  rw [hce] at hp
  have hpe : p = ("m1", appendRecord "Alice" "hi"
      (⟨2024, 7, 20, 12, 30, 5, 123, some 180⟩ : PyDateTime)) := by
    simpa using hp
  rw [hpe]
  exact ⟨"Alice", "hi", _, rfl, by decide, rfl⟩

/-- **C9** (Timestamp-zone invariant).  In every reachable state of
`message_store` — created empty, loaded from a snapshot that a save of a
reachable state produced, or mutated by the `message_handler` append —
every stored record's timestamp is an aware datetime in the canonical
Moscow zone (UTC+3). -/
theorem claim9_reachable_timestamps_moscow (s : Store) (h : ReachableStore s)
    (c : String × List (String × PyMsg)) (hc : c ∈ s)
    (p : String × PyMsg) (hp : p ∈ c.2) :
    ∃ dt, alookup "timestamp" p.2 = some (.time dt) ∧ dt.offsetMinutes = some 180 := by
  obtain ⟨sender, text, dt, hm, _, ho⟩ := reachable_good h c hc p hp
  refine ⟨dt, ?_, ho⟩
  rw [hm]
  rfl

/-- Witness for C9: a store reached by one append (a message arriving at
2024-07-20 09:00:00 UTC) stores its timestamp aware at UTC+3. -/
theorem claim9_witness :
    ∃ dt, alookup "timestamp"
        (appendRecord "Alice" "hi" (utcToMoscow ⟨2024, 7, 20, 9, 0, 0, 0, some 0⟩))
        = some (PyField.time dt) ∧ dt.offsetMinutes = some 180 := by
  have := claim9_reachable_timestamps_moscow
    (appendMsg "c1" "m1" "Alice" "hi" ⟨2024, 7, 20, 9, 0, 0, 0, some 0⟩ [])
    (ReachableStore.append [] "c1" "m1" "Alice" "hi" _ ReachableStore.init
      (by decide) (by decide))
    ("c1", [("m1", appendRecord "Alice" "hi"
      (utcToMoscow ⟨2024, 7, 20, 9, 0, 0, 0, some 0⟩))])
    (List.Mem.head _)
    ("m1", appendRecord "Alice" "hi" (utcToMoscow ⟨2024, 7, 20, 9, 0, 0, 0, some 0⟩))
    (List.Mem.head _)
  simpa using this

/-- **C5** (Load robustness — evaluation).  The handled paths behave as
claimed: an absent file and a file whose contents fail to parse as JSON
(or whose timestamps raise `KeyError`/`ValueError`) yield an empty store
(the corrupt file renamed aside).  But the claim's "for every content"
is false: a file whose content is valid JSON with a non-object top level
— here the array `[1, 2]` — makes `data.items()` raise `AttributeError`,
which the `except (json.JSONDecodeError, KeyError, ValueError)` clause
does not catch, so startup crashes instead of starting from an empty
store. -/
theorem claim5_load_crash_on_nonobject :
    loadFile none = .ok [] ∧
    loadFile (some none) = .renamedBackupEmpty ∧
    loadFile (some (some (.arr [.num 1, .num 2]))) = .crash .attributeError :=
  ⟨rfl, rfl, rfl⟩

/-- **C4** (Batched save).  Starting from a zero counter with threshold
`SAVE_BATCH_SIZE = 10`: nine consecutive `force=False` calls write
nothing (counter ends at 9), the tenth call performs exactly one write
(resetting the counter), and a `force=True` call writes for every
counter value. -/
theorem claim4_batched_save :
    runSaves (List.replicate 9 false) 0 = (9, List.replicate 9 false) ∧
    runSaves (List.replicate 10 false) 0 = (0, List.replicate 9 false ++ [true]) ∧
    (∀ c : Nat, saveStep true c = (0, true)) := by
  refine ⟨by decide, by decide, ?_⟩
  intro c
  simp [saveStep]

/-- The thread-cache truncation applied by `cleanup_chat_threads`,
`chatgpt_query` and `message_handler`:
`thread[:1] + thread[-10:]` whenever the length exceeds 20. -/
def trimThread {α : Type} (l : List α) : List α :=
  if l.length > 20 then l.take 1 ++ l.drop (l.length - 10) else l

/-- **C8** (Thread-cache trim).  Whenever a thread's length exceeds 20,
trimming leaves exactly 11 entries: the seed (index 0) unchanged, then
the 10 most recent entries in their original order; below the cap the
thread is untouched. -/
theorem claim8_thread_trim {α : Type} (l : List α) (h : l.length > 20) :
    (trimThread l).length = 11 ∧
    (trimThread l).take 1 = l.take 1 ∧
    (trimThread l).drop 1 = l.drop (l.length - 10) := by
  unfold trimThread
  rw [if_pos h]
  have h1 : (l.take 1).length = 1 := by
    rw [List.length_take]
    omega
  have h2 : (l.drop (l.length - 10)).length = 10 := by
    rw [List.length_drop]
    omega
  refine ⟨by simp [List.length_append, h1, h2], ?_, ?_⟩
  · rw [List.take_append_of_le_length (by omega)]
    exact List.take_take 1 1 l ▸ by simp
  · rw [List.drop_append_of_le_length (by omega)]
    have h3 : (l.take 1).drop 1 = [] := by
      have h4 : ((l.take 1).drop 1).length = 0 := by
        rw [List.length_drop, h1]
      exact List.eq_nil_of_length_eq_zero h4
    rw [h3, List.nil_append]

/-- Witness for C8 on a concrete 21-entry thread. -/
theorem claim8_witness :
    (trimThread (List.range 21)).length = 11 ∧
    (trimThread (List.range 21)).take 1 = (List.range 21).take 1 ∧
    (trimThread (List.range 21)).drop 1 = (List.range 21).drop ((List.range 21).length - 10) :=
  claim8_thread_trim (List.range 21) (by decide)

/-! ## Window queries (`get_messages`, `get_messages_last_hours`,
`get_messages_for_date`; chatd.py lines 471-539) -/

/-- Python `str()` of a stored dict value, as used by the f-string
`f"{msg['sender']}: {msg['text']}"`.  The container and datetime cases
are never exercised by records the program appends (their `repr` is not
modelled). -/
def fmtField : PyField → String
  | .js (.str s) => s
  | .js (.num n) => toString n
  | .js (.bool true) => "True"
  | .js (.bool false) => "False"
  | .js .null => "None"
  | .js (.arr _) => ""
  | .js (.obj _) => ""
  | .time _ => ""

/-- The f-string `f"{msg['sender']}: {msg['text']}"`; `none` models the
`KeyError` a record without those keys would raise. -/
def fmtMsg (m : PyMsg) : Option String :=
  match alookup "sender" m, alookup "text" m with
  | some sf, some tf => some (fmtField sf ++ ": " ++ fmtField tf)
  | _, _ => none

/-- The chained comparison `start_time <= msg['timestamp'] <= end_time`
(left comparison first, short-circuiting); `none` models the `TypeError`
of comparing a datetime against a non-datetime or mixing naive and
aware, or the `KeyError` of a missing timestamp. -/
def inWindow (startT endT : PyDateTime) (m : PyMsg) : Option Bool :=
  match alookup "timestamp" m with
  | none => none
  | some (.js _) => none
  | some (.time t) =>
    match dtLe startT t with
    | none => none
    | some b1 => if b1 then dtLe t endT else some false

/-- The list comprehension
`[f"{msg['sender']}: {msg['text']}" for msg in ... if start <= ts <= end]`
(condition evaluated before the format, elements left to right). -/
def collectWindow (startT endT : PyDateTime) : List PyMsg → Option (List String)
  | [] => some []
  | m :: rest =>
    match inWindow startT endT m with
    | none => none
    | some false => collectWindow startT endT rest
    | some true =>
      match fmtMsg m, collectWindow startT endT rest with
      | some s, some l => some (s :: l)
      | _, _ => none

/-- The common core of `get_messages` / `get_messages_last_hours`: an
unknown conversation yields `""`; otherwise the formatted in-window
records of `message_store[chat_id].values()` joined with newlines.  The
two source functions differ only in how `start_time`/`end_time` are
derived from the current time, so the window bounds are parameters
here. -/
def queryWindow (startT endT : PyDateTime) (cid : String) (s : Store) : Option String :=
  match alookup cid s with
  | none => some ""
  | some msgs =>
    match collectWindow startT endT (msgs.map Prod.snd) with
    | none => none
    | some lines => some (String.intercalate "\n" lines)

/-- Specification-side window membership: the record's timestamp `t`
satisfies `start ≤ t ≤ end` (as instants, both bounds inclusive). -/
def tsIn (startT endT : PyDateTime) (m : PyMsg) : Bool :=
  match alookup "timestamp" m with
  | some (.time t) =>
    decide (instantMicros startT ≤ instantMicros t) &&
    decide (instantMicros t ≤ instantMicros endT)
  | _ => false

/-- Specification-side formatting `"{sender}: {text}"` of an appended
record. -/
def fmtClean (m : PyMsg) : String :=
  (match alookup "sender" m with
   | some (.js (.str s)) => s
   | _ => "") ++ ": " ++
  (match alookup "text" m with
   | some (.js (.str t)) => t
   | _ => "")

theorem inWindow_good {startT endT : PyDateTime} (hA : startT.offsetMinutes.isSome = true)
    (hB : endT.offsetMinutes.isSome = true) {m : PyMsg} (hm : GoodMsg m) :
    inWindow startT endT m = some (tsIn startT endT m) := by
  obtain ⟨sender, text, dt, hme, _, ho⟩ := hm
  subst hme
  have h1 : alookup "timestamp" (appendRecord sender text dt) = some (.time dt) := rfl
  have hdt : dt.offsetMinutes.isSome = true := by rw [ho]; rfl
  have hle1 : dtLe startT dt = some (decide (instantMicros startT ≤ instantMicros dt)) := by
    unfold dtLe
    rw [hA, hdt]
    simp
  have hle2 : dtLe dt endT = some (decide (instantMicros dt ≤ instantMicros endT)) := by
    unfold dtLe
    rw [hB, hdt]
    simp
  unfold inWindow tsIn
  simp only [h1]
  rw [hle1]
  by_cases hb : instantMicros startT ≤ instantMicros dt
  · simp [hb, hle2]
  · simp [hb]

theorem fmtMsg_appendRecord (sender text : String) (dt : PyDateTime) :
    fmtMsg (appendRecord sender text dt) = some (sender ++ ": " ++ text) := rfl

theorem fmtClean_appendRecord (sender text : String) (dt : PyDateTime) :
    fmtClean (appendRecord sender text dt) = sender ++ ": " ++ text := rfl

theorem collectWindow_good {startT endT : PyDateTime}
    (hA : startT.offsetMinutes.isSome = true) (hB : endT.offsetMinutes.isSome = true) :
    ∀ {ms : List PyMsg}, (∀ m ∈ ms, GoodMsg m) →
      collectWindow startT endT ms = some ((ms.filter (tsIn startT endT)).map fmtClean) := by
  intro ms
  induction ms with
  | nil => intro _; rfl
  | cons m t ih =>
    intro h
    have hin := inWindow_good hA hB (h m (by simp))
    have ht := ih (fun x hx => h x (List.mem_cons_of_mem _ hx))
    obtain ⟨sender, text, dt, hme, _, _⟩ := h m (by simp)
    subst hme
    rw [show collectWindow startT endT (appendRecord sender text dt :: t) =
        (match inWindow startT endT (appendRecord sender text dt) with
         | none => none
         | some false => collectWindow startT endT t
         | some true =>
           match fmtMsg (appendRecord sender text dt), collectWindow startT endT t with
           | some s, some l => some (s :: l)
           | _, _ => none) from rfl]
    by_cases hb : tsIn startT endT (appendRecord sender text dt) = true
    · have hin2 : inWindow startT endT (appendRecord sender text dt) = some true := by
        rw [hin, hb]
      rw [hin2, fmtMsg_appendRecord, ht, List.filter_cons, if_pos hb, List.map_cons,
        fmtClean_appendRecord]
    · rw [Bool.not_eq_true] at hb
      have hin2 : inWindow startT endT (appendRecord sender text dt) = some false := by
        rw [hin, hb]
      rw [hin2, ht, List.filter_cons, if_neg (by rw [hb]; exact Bool.false_ne_true)]

/-- **C7** (Window membership).  For every conversation, every window
`[start, end]` (aware bounds, as the source constructs them from the
current Moscow time) and every store of appended records, the window
query returns exactly the records whose timestamp `t` satisfies
`start ≤ t ≤ end` — both boundaries inclusive — each formatted as
`"sender: text"` and joined with newlines, in store order. -/
theorem claim7_window_membership (startT endT : PyDateTime) (cid : String) (s : Store)
    (msgs : List (String × PyMsg))
    (hA : startT.offsetMinutes.isSome = true) (hB : endT.offsetMinutes.isSome = true)
    (hc : alookup cid s = some msgs) (hG : ∀ p ∈ msgs, GoodMsg p.2) :
    queryWindow startT endT cid s = some (String.intercalate "\n"
      (((msgs.map Prod.snd).filter (tsIn startT endT)).map fmtClean)) := by
  have hmm : ∀ m ∈ msgs.map Prod.snd, GoodMsg m := by
    intro m hm
    obtain ⟨p, hp, rfl⟩ := List.mem_map.1 hm
    exact hG p hp
  unfold queryWindow
  simp only [hc]
  rw [collectWindow_good hA hB hmm]

/-- Witness for C7: window 10:00–12:00 over five records at 09:59:59,
10:00:00, 11:00:00, 12:00:00 and 12:00:01 Moscow time returns exactly
the three in-window records (both boundaries included), formatted and
joined with newlines. -/
theorem claim7_witness :
    queryWindow ⟨2024, 7, 20, 10, 0, 0, 0, some 180⟩ ⟨2024, 7, 20, 12, 0, 0, 0, some 180⟩
      "c1"
      [("c1", [("1", appendRecord "A" "early" ⟨2024, 7, 20, 9, 59, 59, 0, some 180⟩),
               ("2", appendRecord "B" "atstart" ⟨2024, 7, 20, 10, 0, 0, 0, some 180⟩),
               ("3", appendRecord "C" "middle" ⟨2024, 7, 20, 11, 0, 0, 0, some 180⟩),
               ("4", appendRecord "D" "atend" ⟨2024, 7, 20, 12, 0, 0, 0, some 180⟩),
               ("5", appendRecord "E" "late" ⟨2024, 7, 20, 12, 0, 1, 0, some 180⟩)])]
      = some "B: atstart\nC: middle\nD: atend" := by
  have h := claim7_window_membership
    ⟨2024, 7, 20, 10, 0, 0, 0, some 180⟩ ⟨2024, 7, 20, 12, 0, 0, 0, some 180⟩
    "c1"
    [("c1", [("1", appendRecord "A" "early" ⟨2024, 7, 20, 9, 59, 59, 0, some 180⟩),
             ("2", appendRecord "B" "atstart" ⟨2024, 7, 20, 10, 0, 0, 0, some 180⟩),
             ("3", appendRecord "C" "middle" ⟨2024, 7, 20, 11, 0, 0, 0, some 180⟩),
             ("4", appendRecord "D" "atend" ⟨2024, 7, 20, 12, 0, 0, 0, some 180⟩),
             ("5", appendRecord "E" "late" ⟨2024, 7, 20, 12, 0, 1, 0, some 180⟩)])]
    [("1", appendRecord "A" "early" ⟨2024, 7, 20, 9, 59, 59, 0, some 180⟩),
     ("2", appendRecord "B" "atstart" ⟨2024, 7, 20, 10, 0, 0, 0, some 180⟩),
     ("3", appendRecord "C" "middle" ⟨2024, 7, 20, 11, 0, 0, 0, some 180⟩),
     ("4", appendRecord "D" "atend" ⟨2024, 7, 20, 12, 0, 0, 0, some 180⟩),
     ("5", appendRecord "E" "late" ⟨2024, 7, 20, 12, 0, 1, 0, some 180⟩)]
    rfl rfl rfl
    (by
      intro p hp
      simp only [List.mem_cons, List.not_mem_nil, or_false] at hp
      rcases hp with rfl | rfl | rfl | rfl | rfl
      · exact ⟨"A", "early", _, rfl, by decide, rfl⟩
      · exact ⟨"B", "atstart", _, rfl, by decide, rfl⟩
      · exact ⟨"C", "middle", _, rfl, by decide, rfl⟩
      · exact ⟨"D", "atend", _, rfl, by decide, rfl⟩
      · exact ⟨"E", "late", _, rfl, by decide, rfl⟩)
  rw [h]
  decide

/-! ## `get_messages_for_date` (chatd.py lines 496-519) -/

/-- ASCII decimal digit test (`\d` of the strptime regex; the claims only
exercise ASCII labels). -/
def isDigitChar (c : Char) : Bool := 48 ≤ c.toNat && c.toNat ≤ 57

/-- Maximal digit prefix. -/
def spanDigits : List Char → List Char × List Char
  | [] => ([], [])
  | c :: rest =>
    if isDigitChar c then
      let p := spanDigits rest
      (c :: p.1, p.2)
    else ([], c :: rest)

/-- Numeric value of a digit run. -/
def natOfDigitsAux (acc : Nat) : List Char → Nat
  | [] => acc
  | c :: rest => natOfDigitsAux (acc * 10 + (c.toNat - 48)) rest

def natOfDigits (ds : List Char) : Nat := natOfDigitsAux 0 ds

/-- `datetime.strptime(date_str, '%Y-%m-%d')` followed by the `datetime`
constructor's range validation: `%Y` is exactly four digits, `%m` and
`%d` are one or two digits whose values must be a real month and a real
day of that month, and the whole string must be consumed. -/
def parseYmd (s : String) : Option (Nat × Nat × Nat) :=
  match read4 s.data with
  | none => none
  | some (y, r1) =>
    match expectChar '-' r1 with
    | none => none
    | some r2 =>
      let pm := spanDigits r2
      match expectChar '-' pm.2 with
      | none => none
      | some r4 =>
        let pd := spanDigits r4
        if pd.2 = [] ∧ 1 ≤ pm.1.length ∧ pm.1.length ≤ 2 ∧
            1 ≤ pd.1.length ∧ pd.1.length ≤ 2 then
          let mv := natOfDigits pm.1
          let dv := natOfDigits pd.1
          if 1 ≤ y ∧ 1 ≤ mv ∧ mv ≤ 12 ∧ 1 ≤ dv ∧ dv ≤ daysInMonth y mv then
            some (y, mv, dv)
          else none
        else none

/-- Result of a Python call: a value, or an uncaught exception. -/
inductive PyOutcome (α : Type) where
  | ok : α → PyOutcome α
  | raised : PyOutcome α
deriving DecidableEq, Repr

/-- `get_messages_for_date`: parse the label (a `ValueError` from
`strptime` is caught, returning `None`), localize midnight of that date
to Moscow, query the inclusive window up to `+1 day - 1 second`
(23:59:59 of the same date), `""` for an unknown conversation.  Errors
raised inside the comprehension (`TypeError`/`KeyError` on malformed
records) are not `ValueError` and escape (`raised`). -/
def getMessagesForDate (dateStr cid : String) (s : Store) : PyOutcome (Option String) :=
  match parseYmd dateStr with
  | none => .ok none
  | some (y, m, d) =>
    match alookup cid s with
    | none => .ok (some "")
    | some msgs =>
      match collectWindow ⟨y, m, d, 0, 0, 0, 0, some 180⟩
          ⟨y, m, d, 23, 59, 59, 0, some 180⟩ (msgs.map Prod.snd) with
      | none => .raised
      | some lines => .ok (some (String.intercalate "\n" lines))

/-- **C6** (Invalid date vs no data).  A label that does not parse as
`YYYY-MM-DD` always yields the distinguished invalid-format outcome
(`None`), whatever the store; a label that parses yields the
empty-result outcome `""` both for an unknown conversation and for a
known conversation none of whose (appended) records fall on that date;
and the two outcomes are distinct. -/
theorem claim6_invalid_date_vs_empty :
    (∀ (lbl cid : String) (s : Store), parseYmd lbl = none →
        getMessagesForDate lbl cid s = .ok none) ∧
    (∀ (lbl cid : String) (s : Store) (y m d : Nat), parseYmd lbl = some (y, m, d) →
        alookup cid s = none → getMessagesForDate lbl cid s = .ok (some "")) ∧
    (∀ (lbl cid : String) (s : Store) (y m d : Nat) (msgs : List (String × PyMsg)),
        parseYmd lbl = some (y, m, d) → alookup cid s = some msgs →
        (∀ p ∈ msgs, GoodMsg p.2) →
        (∀ p ∈ msgs, tsIn ⟨y, m, d, 0, 0, 0, 0, some 180⟩
            ⟨y, m, d, 23, 59, 59, 0, some 180⟩ p.2 = false) →
        getMessagesForDate lbl cid s = .ok (some "")) ∧
    (PyOutcome.ok (none : Option String)) ≠ .ok (some "") := by
  refine ⟨?_, ?_, ?_, by simp⟩
  · intro lbl cid s hp
    unfold getMessagesForDate
    rw [hp]
  · intro lbl cid s y m d hp hc
    unfold getMessagesForDate
    rw [hp, hc]
  · intro lbl cid s y m d msgs hp hc hG hout
    unfold getMessagesForDate
    simp only [hp, hc]
    have hmm : ∀ x ∈ msgs.map Prod.snd, GoodMsg x := by
      intro x hx
      obtain ⟨p, hpp, rfl⟩ := List.mem_map.1 hx
      exact hG p hpp
    rw [@collectWindow_good ⟨y, m, d, 0, 0, 0, 0, some 180⟩
      ⟨y, m, d, 23, 59, 59, 0, some 180⟩ rfl rfl (msgs.map Prod.snd) hmm]
    have hfil : (msgs.map Prod.snd).filter
        (tsIn ⟨y, m, d, 0, 0, 0, 0, some 180⟩ ⟨y, m, d, 23, 59, 59, 0, some 180⟩) = [] := by
      rw [List.filter_eq_nil_iff]
      intro x hx
      obtain ⟨p, hpp, rfl⟩ := List.mem_map.1 hx
      rw [hout p hpp]
      exact Bool.false_ne_true
    rw [hfil]
    rfl

/-- Witness for C6: the unparseable labels `"hello"` and `"2024-13-40"`
yield the invalid-format outcome on a non-empty store; the valid label
`"2024-07-20"` yields `""` on an unknown conversation and on a
conversation whose only record is on another date. -/
theorem claim6_witness :
    getMessagesForDate "hello" "c1"
      [("c1", [("1", appendRecord "A" "x" ⟨2024, 7, 21, 9, 0, 0, 0, some 180⟩)])]
      = .ok none ∧
    getMessagesForDate "2024-13-40" "c1"
      [("c1", [("1", appendRecord "A" "x" ⟨2024, 7, 21, 9, 0, 0, 0, some 180⟩)])]
      = .ok none ∧
    getMessagesForDate "2024-07-20" "unknown"
      [("c1", [("1", appendRecord "A" "x" ⟨2024, 7, 21, 9, 0, 0, 0, some 180⟩)])]
      = .ok (some "") ∧
    getMessagesForDate "2024-07-20" "c1"
      [("c1", [("1", appendRecord "A" "x" ⟨2024, 7, 21, 9, 0, 0, 0, some 180⟩)])]
      = .ok (some "") := by
  refine ⟨claim6_invalid_date_vs_empty.1 _ _ _ (by decide),
    claim6_invalid_date_vs_empty.1 _ _ _ (by decide),
    claim6_invalid_date_vs_empty.2.1 _ _ _ 2024 7 20 (by decide) rfl,
    claim6_invalid_date_vs_empty.2.2.1 _ _ _ 2024 7 20 _ (by decide) rfl ?_ ?_⟩
  · intro p hp
    simp only [List.mem_cons, List.not_mem_nil, or_false] at hp
    rcases hp with rfl
    exact ⟨"A", "x", _, rfl, by decide, rfl⟩
  · intro p hp
    simp only [List.mem_cons, List.not_mem_nil, or_false] at hp
    rcases hp with rfl
    decide

/-! ## `check_suno_task_status` (song_generator.py lines 279-317) -/

/-- Python truthiness of a JSON value (`if result.get('data'):`). -/
def jsonTruthy : Json → Bool
  | .null => false
  | .bool b => b
  | .num n => decide (n ≠ 0)
  | .str s => decide (s ≠ "")
  | .arr l => !l.isEmpty
  | .obj l => !l.isEmpty

/-- Response of the status endpoint: HTTP status code and parsed body
(`none` when `response.json()` raises). -/
structure HttpResponse where
  statusCode : Nat
  body : Option Json

/-- `check_suno_task_status`: `None` without an API key; on HTTP 200
returns `result['data']` when `result.get('code') == 200` and the data
is truthy, else `None`; the explicit 404 branch ("task not found —
possibly already finished or deleted") returns `None`; any other status
code returns `None`; any exception during the request (`resp = none`)
is caught, returning `None`. -/
def checkSunoTaskStatus (hasApiKey : Bool) (resp : Option HttpResponse) : Option Json :=
  if hasApiKey = false then none
  else
    match resp with
    | none => none
    | some r =>
      if r.statusCode = 200 then
        match r.body with
        | none => none
        | some (.obj kvs) =>
          match alookup "code" kvs, alookup "data" kvs with
          | some (.num 200), some dj => if jsonTruthy dj then some dj else none
          | _, _ => none
        | some _ => none
      else if r.statusCode = 404 then none
      else none

/-! ## `check_song_automatically` (chatd.py lines 967-1110) and job
submission (chatd.py lines 925-944, 574-588) -/

/-- The four terminal failure tags recognized by the poller. -/
def terminalFailureTags : List String :=
  ["CREATE_TASK_FAILED", "GENERATE_AUDIO_FAILED", "CALLBACK_EXCEPTION", "SENSITIVE_WORD_ERROR"]

/-- `del song_tasks[task_id]`, guarded by `task_id in song_tasks`
(a no-op when absent). -/
def eraseId (tid : String) : List String → List String
  | [] => []
  | x :: rest => if x = tid then rest else x :: eraseId tid rest

/-- `song_tasks[task_id] = {...}` on submission (dict keys are unique:
replace if present, else append). -/
def insertId (tid : String) : List String → List String
  | [] => [tid]
  | x :: rest => if x = tid then x :: rest else x :: insertId tid rest

/-- A delivery of a terminal result to the chat (the downstream sink). -/
inductive DeliveryEvent where
  | success : String → DeliveryEvent
  | failure : String → String → DeliveryEvent
deriving DecidableEq, Repr

/-- Result of one poll step: the tracker (`song_tasks` key set) after
the step, the delay of the next poll this step scheduled (if any), and
the deliveries completed. -/
structure PollOutcome where
  tracker : List String
  nextDelay : Option Nat
  deliveries : List DeliveryEvent
deriving DecidableEq, Repr

/-- One run of `check_song_automatically` for task `tid`.

`checkResult` models the `check_suno_task_status(task_id)` value: `none`
when it returned `None` (transient failure, 404, non-200, missing key…);
`some st` when it returned a dict, where `st` is the raw `'status'`
entry (`none` when absent — `status_result.get('status', 'unknown')`
then yields `"unknown"`).

`deliveryOk` says whether the sends to the chat completed without
raising (delivery is modelled as atomic).  A raising send propagates to
the outer `except`, which schedules a retry after 120 s; in particular
the guarded `del` of the tracker entry, *placed after the sends*, is
then skipped.  On `'SUCCESS'` the results are sent (and on a terminal
failure tag the failure notice is sent) whether or not the id is still
tracked; only the removal is guarded. -/
def pollStep (tid : String) (checkResult : Option (Option String)) (deliveryOk : Bool)
    (tr : List String) : PollOutcome :=
  match checkResult with
  | none => ⟨tr, some 60, []⟩
  | some st =>
    let status := st.getD "unknown"
    if status = "SUCCESS" then
      if deliveryOk then ⟨eraseId tid tr, none, [.success tid]⟩
      else ⟨tr, some 120, []⟩
    else if terminalFailureTags.contains status then
      if deliveryOk then ⟨eraseId tid tr, none, [.failure tid status]⟩
      else ⟨tr, some 120, []⟩
    else ⟨tr, some 30, []⟩

/-- `handle_song_generation` / the custom-song order path on submission
success: record `song_tasks[task_id]` and schedule the first
`check_song_automatically` run 180 s later. -/
def submitJob (tid : String) (tr : List String) : List String × Nat :=
  (insertId tid tr, 180)

/-- A chain of scheduled polls for one job: starting from one pending
scheduled poll, consume one `(checkResult, deliveryOk)` input per poll
while a next poll remains scheduled.  Returns the final tracker, whether
a poll is still pending, and the deliveries made along the chain. -/
def runChain (tid : String) : List (Option (Option String) × Bool) → List String →
    List String × Bool × List DeliveryEvent
  | [], tr => (tr, true, [])
  | i :: rest, tr =>
    let o := pollStep tid i.1 i.2 tr
    match o.nextDelay with
    | none => (o.tracker, false, o.deliveries)
    | some _ =>
      let r := runChain tid rest o.tracker
      (r.1, r.2.1, o.deliveries ++ r.2.2)

theorem pollStep_no_delay_or_no_delivery (tid : String) (i : Option (Option String))
    (ok : Bool) (tr : List String) :
    ((pollStep tid i ok tr).nextDelay ≠ none → (pollStep tid i ok tr).deliveries = []) ∧
    (pollStep tid i ok tr).deliveries.length ≤ 1 := by
  rcases i with _ | st
  · simp [pollStep]
  · simp only [pollStep]
    split_ifs <;> simp

theorem runChain_deliveries_le_one (tid : String) :
    ∀ (inputs : List (Option (Option String) × Bool)) (tr : List String),
      (runChain tid inputs tr).2.2.length ≤ 1 := by
  intro inputs
  induction inputs with
  | nil => intro tr; simp [runChain]
  | cons i rest ih =>
    intro tr
    simp only [runChain]
    cases h : (pollStep tid i.1 i.2 tr).nextDelay with
    | none => exact (pollStep_no_delay_or_no_delivery tid i.1 i.2 tr).2
    | some d =>
      have he : (pollStep tid i.1 i.2 tr).deliveries = [] :=
        (pollStep_no_delay_or_no_delivery tid i.1 i.2 tr).1 (by rw [h]; exact Option.some_ne_none d)
      simp only [he, List.nil_append, List.length_nil]
      exact ih _

theorem not_mem_eraseId {tid : String} : ∀ {tr : List String}, tr.Nodup →
    tid ∉ eraseId tid tr := by
  intro tr
  induction tr with
  | nil => intro _ h; simp [eraseId] at h
  | cons x rest ih =>
    intro hnd h
    simp only [eraseId] at h
    split at h
    · rename_i hx
      subst hx
      exact (List.nodup_cons.1 hnd).1 h
    · rcases List.mem_cons.1 h with h1 | h1
      · rename_i hx
        exact hx h1.symm
      · exact ih (List.nodup_cons.1 hnd).2 h1

theorem mem_insertId (tid : String) : ∀ (tr : List String), tid ∈ insertId tid tr := by
  intro tr
  induction tr with
  | nil => simp [insertId]
  | cons x rest ih =>
    simp only [insertId]
    split
    · rename_i hx
      exact hx ▸ List.mem_cons_self _ _
    · exact List.mem_cons_of_mem _ ih

/-- **C2 — counterexample.**  The claim says the tracker entry is removed
at the moment a terminal state is handled "even when delivery of the
terminal result to the downstream sink itself fails".  In the code the
`del song_tasks[task_id]` comes *after* the sends, inside the same `try`:
when the send raises, control jumps to the outer `except`, which
schedules another poll in 120 s and leaves the entry in place.
Concretely: a poll for tracked job `"t1"` observing terminal status
`SUCCESS` whose delivery raises keeps `"t1"` tracked and reschedules. -/
theorem claim2_counterexample :
    (pollStep "t1" (some (some "SUCCESS")) false ["t1"]).tracker = ["t1"] ∧
    (pollStep "t1" (some (some "SUCCESS")) false ["t1"]).nextDelay = some 120 ∧
    (pollStep "t1" (some (some "SUCCESS")) false ["t1"]).deliveries = [] := by
  decide

/-- **C2 — amended.**  Along any poll chain a terminal result is
delivered to the sink at most once, and on a terminal status whose
delivery completes the entry is removed and no further poll is
scheduled; but when delivery of the terminal result raises, the entry is
*not* removed — it stays tracked and another poll is scheduled after 120
units, so the terminal handling itself is retried. -/
theorem claim2_amended_terminal_handling :
    (∀ (tid : String) (inputs : List (Option (Option String) × Bool)) (tr : List String),
        (runChain tid inputs tr).2.2.length ≤ 1) ∧
    (∀ (tid : String) (st : Option String) (tr : List String),
        (st.getD "unknown" = "SUCCESS" ∨
          terminalFailureTags.contains (st.getD "unknown") = true) →
        (pollStep tid (some st) true tr).tracker = eraseId tid tr ∧
        (pollStep tid (some st) true tr).nextDelay = none ∧
        (pollStep tid (some st) true tr).deliveries.length = 1) ∧
    (∀ (tid : String) (st : Option String) (tr : List String),
        (st.getD "unknown" = "SUCCESS" ∨
          terminalFailureTags.contains (st.getD "unknown") = true) →
        pollStep tid (some st) false tr = ⟨tr, some 120, []⟩) := by
  refine ⟨runChain_deliveries_le_one, ?_, ?_⟩
  · intro tid st tr hterm
    rcases hterm with hs | hf
    · simp [pollStep, hs]
    · have hf' : st.getD "unknown" ∈ terminalFailureTags := by simpa using hf
      by_cases hs : st.getD "unknown" = "SUCCESS"
      · simp [pollStep, hs]
      · simp [pollStep, hs, hf']
  · intro tid st tr hterm
    rcases hterm with hs | hf
    · simp [pollStep, hs]
    · have hf' : st.getD "unknown" ∈ terminalFailureTags := by simpa using hf
      by_cases hs : st.getD "unknown" = "SUCCESS"
      · simp [pollStep, hs]
      · simp [pollStep, hs, hf']

/-- Witness for the amended C2: a chain `[InProgress, Success]` delivers
exactly once; a successful `SENSITIVE_WORD_ERROR` handling removes the
entry and schedules nothing; a raising delivery leaves the entry and
schedules a 120-unit retry. -/
theorem claim2_witness :
    (runChain "t1" [(some (some "PENDING"), true), (some (some "SUCCESS"), true)]
        ["t1"]).2.2.length ≤ 1 ∧
    (pollStep "t1" (some (some "SENSITIVE_WORD_ERROR")) true ["t1"]).tracker = eraseId "t1" ["t1"] ∧
    (pollStep "t1" (some (some "SENSITIVE_WORD_ERROR")) true ["t1"]).nextDelay = none ∧
    (pollStep "t1" (some (some "SENSITIVE_WORD_ERROR")) true ["t1"]).deliveries.length = 1 ∧
    pollStep "t1" (some (some "SENSITIVE_WORD_ERROR")) false ["t1"]
      = ⟨["t1"], some 120, []⟩ := by
  obtain ⟨h1, h2, h3⟩ := claim2_amended_terminal_handling
  obtain ⟨ha, hb, hc⟩ := h2 "t1" (some "SENSITIVE_WORD_ERROR") ["t1"] (by decide)
  exact ⟨h1 "t1" _ ["t1"], ha, hb, hc, h3 "t1" (some "SENSITIVE_WORD_ERROR") ["t1"] (by decide)⟩

/-- **C3** (Poll-step decision schedule).  Submission schedules the first
poll 180 units later (and records the job id); a poll that gets no
status reschedules after 60; a status that is neither `SUCCESS` nor one
of the four terminal failure tags reschedules after 30; an unhandled
exception during the step (a raising delivery — the status check itself
never raises, it catches everything and returns `None`) reschedules
after 120; a terminal tag whose handling completes schedules no further
poll and removes the entry. -/
theorem claim3_poll_schedule :
    (∀ (tid : String) (tr : List String),
        (submitJob tid tr).2 = 180 ∧ tid ∈ (submitJob tid tr).1) ∧
    (∀ (tid : String) (ok : Bool) (tr : List String),
        pollStep tid none ok tr = ⟨tr, some 60, []⟩) ∧
    (∀ (tid : String) (st : Option String) (ok : Bool) (tr : List String),
        st.getD "unknown" ≠ "SUCCESS" →
        terminalFailureTags.contains (st.getD "unknown") = false →
        pollStep tid (some st) ok tr = ⟨tr, some 30, []⟩) ∧
    (∀ (tid : String) (st : Option String) (tr : List String),
        (st.getD "unknown" = "SUCCESS" ∨
          terminalFailureTags.contains (st.getD "unknown") = true) →
        pollStep tid (some st) false tr = ⟨tr, some 120, []⟩) ∧
    (∀ (tid : String) (st : Option String) (tr : List String),
        (st.getD "unknown" = "SUCCESS" ∨
          terminalFailureTags.contains (st.getD "unknown") = true) →
        (pollStep tid (some st) true tr).nextDelay = none ∧
        (pollStep tid (some st) true tr).tracker = eraseId tid tr) ∧
    (∀ (tid : String) (tr : List String), tr.Nodup → tid ∉ eraseId tid tr) := by
  refine ⟨?_, ?_, ?_, ?_, ?_, fun tid tr h => not_mem_eraseId h⟩
  · intro tid tr
    exact ⟨rfl, mem_insertId tid tr⟩
  · intro tid ok tr
    rfl
  · intro tid st ok tr hs hf
    have hf' : st.getD "unknown" ∉ terminalFailureTags := by simpa using hf
    simp [pollStep, hs, hf']
  · intro tid st tr hterm
    rcases hterm with hs | hf
    · simp [pollStep, hs]
    · have hf' : st.getD "unknown" ∈ terminalFailureTags := by simpa using hf
      by_cases hs : st.getD "unknown" = "SUCCESS"
      · simp [pollStep, hs]
      · simp [pollStep, hs, hf']
  · intro tid st tr hterm
    rcases hterm with hs | hf
    · simp [pollStep, hs]
    · have hf' : st.getD "unknown" ∈ terminalFailureTags := by simpa using hf
      by_cases hs : st.getD "unknown" = "SUCCESS"
      · simp [pollStep, hs]
      · simp [pollStep, hs, hf']

/-- Witness for C3 at concrete inputs: submission; no status;
a non-terminal `"PENDING"`; a raising delivery on `"GENERATE_AUDIO_FAILED"`;
a completed `"SUCCESS"` handling; removal on a duplicate-free tracker. -/
theorem claim3_witness :
    (submitJob "t1" []).2 = 180 ∧ "t1" ∈ (submitJob "t1" []).1 ∧
    pollStep "t1" none true ["t1"] = ⟨["t1"], some 60, []⟩ ∧
    pollStep "t1" (some (some "PENDING")) true ["t1"] = ⟨["t1"], some 30, []⟩ ∧
    pollStep "t1" (some none) true ["t1"] = ⟨["t1"], some 30, []⟩ ∧
    pollStep "t1" (some (some "GENERATE_AUDIO_FAILED")) false ["t1"]
      = ⟨["t1"], some 120, []⟩ ∧
    (pollStep "t1" (some (some "SUCCESS")) true ["t1"]).nextDelay = none ∧
    (pollStep "t1" (some (some "SUCCESS")) true ["t1"]).tracker = eraseId "t1" ["t1"] ∧
    "t1" ∉ eraseId "t1" ["t1"] := by
  obtain ⟨h1, h2, h3, h4, h5, h6⟩ := claim3_poll_schedule
  obtain ⟨h5a, h5b⟩ := h5 "t1" (some "SUCCESS") ["t1"] (by decide)
  exact ⟨(h1 "t1" []).1, (h1 "t1" []).2, h2 "t1" true ["t1"],
    h3 "t1" (some "PENDING") true ["t1"] (by decide) (by decide),
    h3 "t1" none true ["t1"] (by decide) (by decide),
    h4 "t1" (some "GENERATE_AUDIO_FAILED") ["t1"] (by decide),
    h5a, h5b, h6 "t1" ["t1"] (by decide)⟩

/-- **C10** (404 treated as transient).  When the status endpoint
answers HTTP 404 for a tracked job, `check_suno_task_status` returns
`None` — the same value a transient network failure produces — so
`check_song_automatically` reschedules after the medium 60-unit delay;
hence a job deleted or expired upstream is polled again on every chain
step, delivers nothing, never reaches a terminal outcome, and stays
tracked. -/
theorem claim10_404_polled_forever :
    (∀ body, checkSunoTaskStatus true (some ⟨404, body⟩) = none) ∧
    checkSunoTaskStatus true none = none ∧
    (∀ (tid : String) (ok : Bool) (tr : List String),
        pollStep tid none ok tr = ⟨tr, some 60, []⟩) ∧
    (∀ (tid : String) (inputs : List (Option (Option String) × Bool)) (tr : List String),
        (∀ i ∈ inputs, i.1 = none) →
        runChain tid inputs tr = (tr, true, [])) := by
  refine ⟨fun body => rfl, rfl, fun tid ok tr => rfl, ?_⟩
  intro tid inputs
  induction inputs with
  | nil => intro tr _; rfl
  | cons i rest ih =>
    intro tr h
    have hi : i.1 = none := h i (by simp)
    simp only [runChain, hi]
    rw [show pollStep tid none i.2 tr = ⟨tr, some 60, []⟩ from rfl]
    simp only [ih tr (fun x hx => h x (List.mem_cons_of_mem _ hx)), List.nil_append]

/-- Witness for C10: a 404 response with a well-formed body yields no
status, and a two-step all-404 chain leaves the tracker unchanged, still
polling, with no deliveries. -/
theorem claim10_witness :
    checkSunoTaskStatus true (some ⟨404, some (.obj [("code", .num 200)])⟩) = none ∧
    runChain "t1" [(none, true), (none, true)] ["t1"] = (["t1"], true, []) := by
  obtain ⟨h1, _, _, h4⟩ := claim10_404_polled_forever
  exact ⟨h1 _, h4 "t1" [(none, true), (none, true)] ["t1"] (by decide)⟩
